import Mathlib

/-!
Verification development for the todolist-be backend: a shallow embedding of
the todo data model, the write paths of the partitioned Active/Archive
stores, the archival and migration operations, and the public todo API
routes, together with theorems settling the specification claims about them.

Sources embedded:
- `models/todo.py` (the `Todo` ORM model: fields, defaults, `updated_at`
  `onupdate` bookkeeping);
- `schemas/todo.py` (`TodoUpdate`: the set of updatable fields and the
  status regex `^(todo|in_progress|done)$`);
- `api/v1/todos.py` (`get_todo` and `update_todo` route handlers);
- the `todos_active` model of `models/todo_partitioned.py` as shown in
  `doc_db_scaling_strategy.md`, in particular the check constraint
  `check_completed_at_when_done`:
  `(status = 'done' AND completed_at IS NOT NULL) OR (status != 'done')`;
- the maintenance/migration contracts of the database-scaling design
  (archival eligibility, copy-then-delete archival, insert-if-absent
  migration, monthly archive partitions), whose SQL bodies live in
  `migrations/scaling/*.sql` outside this repository snapshot; those
  operations are modelled from the specification and marked as such in
  their doc comments.

Identifiers: UUIDs are modelled as `Nat`, timestamps as `Nat` (seconds).
-/

namespace TodoListBE

/-- Status enumeration of a todo item. From the source: the `todos` table
check `status IN ('todo', 'in_progress', 'done')` and the Pydantic regex
`^(todo|in_progress|done)$` in `schemas/todo.py`. -/
inductive Status where
  | todo
  | in_progress
  | done
deriving DecidableEq, Repr

/-- A stored todo row. Fields follow `models/todo.py` (`Todo`) and the
`todos_active` DDL: `id`, `user_id`, optional `project_id` and
`parent_todo_id`, `title`, optional `description`, `status`, `priority`,
optional `due_date`, bookkeeping `created_at` / `updated_at`, optional
`completed_at`, and the `ai_generated` flag. -/
structure TodoRow where
  id : Nat
  user_id : Nat
  project_id : Option Nat
  parent_todo_id : Option Nat
  title : String
  description : Option String
  status : Status
  priority : Nat
  due_date : Option Nat
  created_at : Nat
  updated_at : Nat
  completed_at : Option Nat
  ai_generated : Bool
deriving DecidableEq, Repr

/-- The write-time check constraint `check_completed_at_when_done` placed on
`todos_active` (source: `models/todo_partitioned.py` as recorded in
`doc_db_scaling_strategy.md`):
`(status = 'done' AND completed_at IS NOT NULL) OR (status != 'done')`. -/
def check_completed_at_when_done (r : TodoRow) : Bool :=
  (r.status == Status.done && r.completed_at.isSome) || (r.status != Status.done)

/-- The invariant exactly as the specification words it (P4): `status ==
done` iff `completed_at is not null`. Stated from the spec's words, to be
compared against the enforcement the source actually provides. -/
def completedAtIffDone (r : TodoRow) : Prop :=
  r.status = Status.done ↔ r.completed_at ≠ none

/-- Insert into the Active store gated by the row-level check constraint,
as the database enforces it at write time: the row is stored iff
`check_completed_at_when_done` accepts it. -/
def insertActive (store : List TodoRow) (r : TodoRow) : Option (List TodoRow) :=
  if check_completed_at_when_done r then some (r :: store) else none

/-- The update payload. Fields follow `TodoUpdate` in `schemas/todo.py`:
only `title`, `description`, `status`, `priority`, `due_date` and
`project_id` exist on the schema (`parent_todo_id` is absent, so an update
can never re-parent). `none` means the field was not provided
(`exclude_unset=True` in the route); for the nullable columns a provided
value is itself an `Option`, so a client can clear them explicitly. -/
structure TodoUpdate where
  title : Option String
  description : Option (Option String)
  status : Option Status
  priority : Option Nat
  due_date : Option (Option Nat)
  project_id : Option (Option Nat)
deriving DecidableEq, Repr

/-- Apply one update to a row. Provided fields overwrite, absent fields are
kept (`exclude_unset=True` in `update_todo` of `api/v1/todos.py`);
`updated_at` is refreshed on every update (`onupdate=datetime.utcnow` in
`models/todo.py`). The `completed_at` stamping is Modelled from the spec:
the service layer that applies the payload is not in this snapshot, and
the spec requires that when `status` transitions to `done`, `completed_at`
is set atomically in the same operation. -/
def applyUpdate (r : TodoRow) (u : TodoUpdate) (now : Nat) : TodoRow :=
  let newStatus := u.status.getD r.status
  { r with
    title := u.title.getD r.title
    description := u.description.getD r.description
    status := newStatus
    priority := u.priority.getD r.priority
    due_date := u.due_date.getD r.due_date
    project_id := u.project_id.getD r.project_id
    updated_at := now
    completed_at :=
      if newStatus = Status.done ∧ r.status ≠ Status.done then some now
      else r.completed_at }

/-- Row selector used by the service: the row with the requested id owned
by the requesting user. -/
def matchesKey (tid uid : Nat) (t : TodoRow) : Bool :=
  t.id == tid && t.user_id == uid

/-- Store-level update, following `update_todo` in `api/v1/todos.py`: the
service updates the todo with the given id for the given user and the
route answers 404 (`none`) when no such todo exists. The lookup-and-apply
service body is not in this snapshot and is Modelled from the spec, as a
keyed in-place mutation of the matching row. -/
def updateTodoStore (s : List TodoRow) (tid uid : Nat) (u : TodoUpdate) (now : Nat) :
    Option (List TodoRow) :=
  if (s.find? (matchesKey tid uid)).isSome then
    some (s.map (fun t => if matchesKey tid uid t then applyUpdate t u now else t))
  else none

/-- The `get_todo` route of `api/v1/todos.py`: fetch by id, then
`if not todo or todo.user_id != current_user.id: raise 404 "Todo not
found"`. The by-id fetch of the service is modelled as first match in the
store. -/
def getTodoRoute (s : List TodoRow) (tid uid : Nat) : Except String TodoRow :=
  match s.find? (fun t => t.id == tid) with
  | none => Except.error "Todo not found"
  | some t => if t.user_id == uid then Except.ok t else Except.error "Todo not found"

/-- Concrete row used in the C1 counterexample: a non-done row carrying a
non-null `completed_at`. -/
def c1row : TodoRow :=
  { id := 1, user_id := 7, project_id := none, parent_todo_id := none,
    title := "t", description := none, status := Status.todo, priority := 3,
    due_date := none, created_at := 0, updated_at := 0,
    completed_at := some 5, ai_generated := false }

/-- Concrete done row used in the C4 counterexample. -/
def c4row : TodoRow :=
  { id := 2, user_id := 7, project_id := none, parent_todo_id := none,
    title := "t", description := none, status := Status.done, priority := 3,
    due_date := none, created_at := 0, updated_at := 0,
    completed_at := some 1, ai_generated := false }

/-- Concrete update payload reopening a done item. -/
def c4upd : TodoUpdate :=
  { title := none, description := none, status := some Status.todo,
    priority := none, due_date := none, project_id := none }

/-- A row of the Archive store (`todos_archived` DDL): all todo fields
plus the `archived_at` stamp set at the moment of archival and never
modified afterward. -/
structure ArchRow where
  row : TodoRow
  archived_at : Nat
deriving DecidableEq, Repr

/-- The two item stores of the partitioned layout: the hash-partitioned
Active store (`todos_active`) and the time-partitioned Archive store
(`todos_archived`). Logical row contents only; the physical partitions do
not change the row-level semantics settled here. -/
structure Stores where
  active : List TodoRow
  archived : List ArchRow
deriving DecidableEq, Repr

/-- Does the Active store contain a row with the given item id. -/
def idInActive (st : Stores) (i : Nat) : Bool :=
  st.active.any (fun r => r.id == i)

/-- Does the Archive store contain a row with the given item id. -/
def idInArchive (st : Stores) (i : Nat) : Bool :=
  st.archived.any (fun a => a.row.id == i)

/-- Is the item id visible in either store. -/
def idPresent (st : Stores) (i : Nat) : Bool :=
  idInActive st i || idInArchive st i

/-- Cross-store uniqueness (spec P3): no item id is visible in both the
Active and the Archive store at once. -/
def UniqueAcross (st : Stores) : Prop :=
  ∀ j, ¬(idInActive st j = true ∧ idInArchive st j = true)

/-- Archival eligibility of a row. Modelled from the spec (P7) — the body
of the SQL function `archive_completed_todos` is not in this snapshot:
eligible iff `status == done` and `now - completed_at ≥ threshold`
(threshold default 30 days); a row with no `completed_at` is never
eligible. Matches the verification query of
`docs/implementation-guide.md` (done rows filtered on `completed_at`). -/
def archivalEligible (r : TodoRow) (now threshold : Nat) : Bool :=
  r.status == Status.done &&
    (match r.completed_at with
     | some c => decide (threshold ≤ now - c)
     | none => false)

/-- Completed copy-then-delete archival of one item id (spec §4.5).
Modelled from the spec: the row is copied into the Archive store with
`archived_at := now`, then every Active copy of that id is deleted; this
models the state after both steps of a completed archival succeeded. -/
def archiveOne (st : Stores) (i now : Nat) : Stores :=
  match st.active.find? (fun r => r.id == i) with
  | none => st
  | some r =>
      { active := st.active.filter (fun t => t.id != i),
        archived := ⟨r, now⟩ :: st.archived }

/-- One completed run of the daily archival job. Modelled from the spec
(P7, §4.6): every eligible Active row is moved to the Archive store
stamped with `archived_at := now`; every other row is left untouched. -/
def runDailyArchival (st : Stores) (now threshold : Nat) : Stores :=
  { active := st.active.filter (fun r => !archivalEligible r now threshold),
    archived :=
      ((st.active.filter (fun r => archivalEligible r now threshold)).map
        (fun r => ⟨r, now⟩)) ++ st.archived }

/-- One row step of the migration batch loop (`migrate_todos_batch`).
Modelled from the spec (§4.5) — the SQL body is not in this snapshot:
insert-if-absent keyed on the Item's id (skip when the id is already
visible in Active or Archive), destination Archive when the row is done
and past retention age at migration time, Active otherwise; the second
component counts rows actually migrated. -/
def migrateStep (now threshold : Nat) (p : Stores × Nat) (r : TodoRow) : Stores × Nat :=
  if idPresent p.1 r.id then p
  else if archivalEligible r now threshold then
    ({ p.1 with archived := ⟨r, now⟩ :: p.1.archived }, p.2 + 1)
  else
    ({ p.1 with active := r :: p.1.active }, p.2 + 1)

/-- A complete migration run over the legacy monolithic table, visiting
every legacy row once in stable order; returns the resulting stores and
the number of rows migrated. -/
def migrateRun (legacy : List TodoRow) (st : Stores) (now threshold : Nat) : Stores × Nat :=
  legacy.foldl (migrateStep now threshold) (st, 0)

/-- Stable hash of a tenant key. Modelled from the spec: the deployed
system delegates to the storage engine's internal stable hash of the
uuid key (`HASH (user_id)` partitioning); any fixed pure mixing function
realizes the routing contract. -/
def hashTenantKey (k : Nat) : Nat :=
  (k * 2654435761 + 40503) % 4294967296

/-- The Partition Router (spec §4.1): `partition_for(tenant_key,
partition_count)` is the stable hash of the key modulo the partition
count. -/
def partition_for (k n : Nat) : Nat :=
  hashTenantKey k % n

/-- Linear index of a calendar month in the model calendar (twelve
fixed-width months per year). -/
def linearMonth (y m : Nat) : Nat :=
  y * 12 + (m - 1)

/-- Fixed-width monthly window of a timestamp: the Archive store is
range-partitioned by `archived_at` into monthly windows (spec §4.3); the
model uses 30-day windows of 2592000 seconds. -/
def monthWindowOf (t : Nat) : Nat :=
  t / 2592000

/-- Provision the Archive partition for a month
(`create_archive_partitions` / `create_partition_for_month`). Modelled
from the spec — the SQL body is not in this snapshot: create-if-absent on
the set of provisioned months, never an error, never a duplicate. -/
def create_partition_for_month (ps : List Nat) (y m : Nat) : List Nat :=
  if ps.contains (linearMonth y m) then ps else linearMonth y m :: ps

/-- The Archive store together with its set of provisioned monthly
partitions. -/
structure ArchiveStore where
  provisionedMonths : List Nat
  rows : List ArchRow
deriving DecidableEq, Repr

/-- Error raised when an Archive insert targets a month with no existing
partition (spec §7). -/
inductive ArchiveInsertError where
  | partitionNotProvisioned
deriving DecidableEq, Repr

/-- The only Archive write path, `insert_archived(item, archived_at)`.
Modelled from the spec (§4.3, §7): the insert succeeds only when the
partition for the month of `archived_at` already exists; otherwise it
raises `PartitionNotProvisioned` and creates nothing. -/
def insert_archived (st : ArchiveStore) (a : ArchRow) :
    Except ArchiveInsertError ArchiveStore :=
  if st.provisionedMonths.contains (monthWindowOf a.archived_at) then
    Except.ok { st with rows := a :: st.rows }
  else Except.error ArchiveInsertError.partitionNotProvisioned

/-- Concrete archive row used in the C8 witness. -/
def c8arch : ArchRow :=
  ⟨{ id := 4, user_id := 7, project_id := none, parent_todo_id := none,
     title := "t", description := none, status := Status.done, priority := 3,
     due_date := none, created_at := 0, updated_at := 0,
     completed_at := some 1, ai_generated := false }, 2600000⟩

/-- Concrete row used in the C10 counterexample. -/
def c10row : TodoRow :=
  { id := 3, user_id := 7, project_id := none, parent_todo_id := some 2,
    title := "t", description := none, status := Status.todo, priority := 3,
    due_date := none, created_at := 0, updated_at := 0,
    completed_at := none, ai_generated := true }

/-- Concrete title-only update payload. -/
def c10upd : TodoUpdate :=
  { title := some "renamed", description := none, status := none,
    priority := none, due_date := none, project_id := none }

end TodoListBE

namespace TodoListBE

/-- C1 counterexample: the write-time enforcement does not realize the
claimed iff. The concrete row with `status = todo` and `completed_at =
some 5` passes `check_completed_at_when_done` and is accepted by the
Active-store insert, yet violates `status == done iff completed_at
non-null`. -/
theorem C1_counterexample :
    insertActive [] c1row = some [c1row] ∧ ¬ completedAtIffDone c1row := by
  constructor
  · rfl
  · unfold completedAtIffDone
    decide

/-- C1 (amended): the write-time enforcement guarantees exactly the
forward direction of the invariant. A row passes the
`check_completed_at_when_done` constraint iff `status = done` implies
`completed_at` is non-null; the reverse direction (non-done implies null
`completed_at`) is not enforced by any write path in the source. -/
theorem C1_amended (r : TodoRow) :
    check_completed_at_when_done r = true
      ↔ (r.status = Status.done → r.completed_at.isSome = true) := by
  unfold check_completed_at_when_done
  cases h : r.status <;> cases hc : r.completed_at <;> simp [h, hc]

/-- C4 counterexample: the update step relation does leave `done`. The
concrete done row, updated with the schema-valid payload `status :=
todo`, transitions back to `todo`: no forward-only guard exists on the
update path. -/
theorem C4_counterexample :
    c4row.status = Status.done ∧ (applyUpdate c4row c4upd 10).status = Status.todo := by
  constructor
  · rfl
  · rfl

/-- C4 (amended): the update path validates `status` against
{todo, in_progress, done} (schema regex) but imposes no transition guard:
the resulting status is exactly the requested one (or unchanged when not
provided), independent of the prior status, so `todo → in_progress →
done` and `todo → done` are permitted but so is any transition out of
`done`. -/
theorem C4_amended (r : TodoRow) (u : TodoUpdate) (now : Nat) :
    (applyUpdate r u now).status = u.status.getD r.status := rfl

/-- C9: the get-todo route returns the todo iff it exists and is owned by
the requester; both absence and a cross-tenant id produce the identical
404 error value "Todo not found", so a cross-tenant read is
indistinguishable from absence. -/
theorem C9_get_todo_not_found (s : List TodoRow) (tid uid : Nat) :
    (∀ t, getTodoRoute s tid uid = Except.ok t
        ↔ s.find? (fun x => x.id == tid) = some t ∧ t.user_id = uid) ∧
    (s.find? (fun x => x.id == tid) = none →
        getTodoRoute s tid uid = Except.error "Todo not found") ∧
    (∀ t, s.find? (fun x => x.id == tid) = some t → t.user_id ≠ uid →
        getTodoRoute s tid uid = Except.error "Todo not found") := by
  refine ⟨?_, ?_, ?_⟩
  · intro t
    unfold getTodoRoute
    cases hf : s.find? (fun x => x.id == tid) with
    | none => simp
    | some t0 =>
      dsimp only
      by_cases ho : t0.user_id = uid
      · rw [if_pos (by simp [ho])]
        constructor
        · intro h2
          injection h2 with h5
          subst h5
          exact ⟨rfl, ho⟩
        · rintro ⟨h4, h3⟩
          injection h4 with h5
          rw [h5]
      · rw [if_neg (by simp [ho])]
        constructor
        · intro h2
          exact absurd h2 (by simp)
        · rintro ⟨h4, h3⟩
          injection h4 with h5
          subst h5
          exact absurd h3 ho
  · intro hf
    unfold getTodoRoute
    rw [hf]
  · intro t hf ho
    unfold getTodoRoute
    rw [hf]
    dsimp only
    rw [if_neg (by simp [ho])]

/-- C9 witness: the theorem evaluated on a concrete store. The owner's
read succeeds, a cross-tenant read and a read of an absent id both
produce the identical "Todo not found" error. -/
theorem C9_get_todo_not_found_witness :
    getTodoRoute [c4row] 2 7 = Except.ok c4row ∧
    getTodoRoute [c4row] 2 8 = Except.error "Todo not found" ∧
    getTodoRoute [c4row] 99 7 = Except.error "Todo not found" :=
  ⟨((C9_get_todo_not_found [c4row] 2 7).1 c4row).mpr ⟨by decide, rfl⟩,
   (C9_get_todo_not_found [c4row] 2 8).2.2 c4row (by decide) (by decide),
   (C9_get_todo_not_found [c4row] 99 7).2.1 (by decide)⟩

/-- C10 counterexample: an update changes more than the six listed fields.
Updating only the title still rewrites `updated_at` (the `onupdate`
bookkeeping of `models/todo.py`), so the claim that only `title`,
`description`, `status`, `priority`, `due_date` and `project_id` can
change is false. -/
theorem C10_counterexample :
    (applyUpdate c10row c10upd 5).updated_at ≠ c10row.updated_at := by decide

/-- C10 (amended): an update can change only `title`, `description`,
`status`, `priority`, `due_date`, `project_id` and the bookkeeping fields
`updated_at` and `completed_at`; the fields `id`, `user_id`,
`parent_todo_id`, `ai_generated` and `created_at` of the updated todo are
unchanged (no re-parenting through the public update interface), every
non-matching todo in the store is unchanged, and the store keeps its
length. -/
theorem C10_frame (s : List TodoRow) (tid uid : Nat) (u : TodoUpdate) (now : Nat)
    (s₂ : List TodoRow) (h : updateTodoStore s tid uid u now = some s₂) :
    s₂.length = s.length ∧
    (∀ t ∈ s, matchesKey tid uid t = false → t ∈ s₂) ∧
    (∀ t ∈ s, matchesKey tid uid t = true →
      (applyUpdate t u now).id = t.id ∧
      (applyUpdate t u now).user_id = t.user_id ∧
      (applyUpdate t u now).parent_todo_id = t.parent_todo_id ∧
      (applyUpdate t u now).ai_generated = t.ai_generated ∧
      (applyUpdate t u now).created_at = t.created_at ∧
      applyUpdate t u now ∈ s₂) := by
  unfold updateTodoStore at h
  by_cases hf : (s.find? (matchesKey tid uid)).isSome
  · rw [if_pos hf] at h
    cases h
    refine ⟨List.length_map _ _, ?_, ?_⟩
    · intro t ht hm
      refine List.mem_map.mpr ⟨t, ht, ?_⟩
      simp [hm]
    · intro t ht hm
      refine ⟨rfl, rfl, rfl, rfl, rfl, ?_⟩
      refine List.mem_map.mpr ⟨t, ht, ?_⟩
      simp [hm]
  · rw [if_neg hf] at h
    exact absurd h (by simp)

/-- Helper: membership reading of the Active-store id test. -/
theorem idInActive_iff (st : Stores) (j : Nat) :
    idInActive st j = true ↔ ∃ r ∈ st.active, r.id = j := by
  simp [idInActive, List.any_eq_true]

/-- Helper: membership reading of the Archive-store id test. -/
theorem idInArchive_iff (st : Stores) (j : Nat) :
    idInArchive st j = true ↔ ∃ a ∈ st.archived, a.row.id = j := by
  simp [idInArchive, List.any_eq_true]

/-- C2: the copy-then-delete archival protocol and the insert-if-absent
migration step preserve cross-store uniqueness, and a completed archival
neither hides an id nor duplicates one: after the operation every item id
is visible in exactly the stores it was visible in before, minus the
Active copy of the archived id, plus its Archive copy. -/
theorem C2_cross_store_uniqueness (st : Stores) (i now threshold : Nat) (r0 : TodoRow)
    (h : UniqueAcross st) :
    UniqueAcross (archiveOne st i now) ∧
    (∀ j, idPresent (archiveOne st i now) j = true ↔ idPresent st j = true) ∧
    UniqueAcross (migrateStep now threshold (st, 0) r0).1 := by
  refine ⟨?_, ?_, ?_⟩
  · unfold archiveOne
    cases hfind : st.active.find? (fun t => t.id == i) with
    | none => exact h
    | some r =>
      intro j hj
      obtain ⟨hja, hjr⟩ := hj
      obtain ⟨t, htmem, htid⟩ := (idInActive_iff _ j).mp hja
      obtain ⟨a, hamem, haid⟩ := (idInArchive_iff _ j).mp hjr
      simp only [List.mem_filter, bne_iff_ne] at htmem
      obtain ⟨htmem0, htne⟩ := htmem
      rcases List.mem_cons.mp hamem with hcase | hcase
      · have hrid : r.id = i := by
          have h2 := List.find?_some hfind
          simpa using h2
        rw [hcase] at haid
        exact htne (htid.trans (haid.symm.trans hrid))
      · exact h j ⟨(idInActive_iff st j).mpr ⟨t, htmem0, htid⟩,
          (idInArchive_iff st j).mpr ⟨a, hcase, haid⟩⟩
  · intro j
    unfold archiveOne
    cases hfind : st.active.find? (fun t => t.id == i) with
    | none => exact Iff.rfl
    | some r =>
      have hrmem : r ∈ st.active := List.mem_of_find?_eq_some hfind
      have hrid : r.id = i := by
        have h2 := List.find?_some hfind
        simpa using h2
      simp only [idPresent, Bool.or_eq_true, idInActive_iff, idInArchive_iff]
      constructor
      · rintro (⟨t, htmem, htid⟩ | ⟨a, hamem, haid⟩)
        · simp only [List.mem_filter, bne_iff_ne] at htmem
          exact Or.inl ⟨t, htmem.1, htid⟩
        · rcases List.mem_cons.mp hamem with hcase | hcase
          · rw [hcase] at haid
            exact Or.inl ⟨r, hrmem, haid⟩
          · exact Or.inr ⟨a, hcase, haid⟩
      · rintro (⟨t, htmem, htid⟩ | ⟨a, hamem, haid⟩)
        · by_cases hti : t.id = i
          · exact Or.inr ⟨⟨r, now⟩, List.mem_cons_self _ _, hrid.trans (hti ▸ htid)⟩
          · exact Or.inl ⟨t, List.mem_filter.mpr ⟨htmem, by simpa using hti⟩, htid⟩
        · exact Or.inr ⟨a, List.mem_cons_of_mem _ hamem, haid⟩
  · unfold migrateStep
    split
    · exact h
    · next hnp =>
      have hnp2 : idInActive st r0.id = false ∧ idInArchive st r0.id = false := by
        have h3 : idPresent st r0.id = false := by simpa using hnp
        simpa [idPresent, Bool.or_eq_false_iff] using h3
      split
      · intro j hj
        obtain ⟨hja, hjr⟩ := hj
        obtain ⟨t, htmem, htid⟩ := (idInActive_iff _ j).mp hja
        obtain ⟨a, hamem, haid⟩ := (idInArchive_iff _ j).mp hjr
        replace htmem : t ∈ st.active := htmem
        replace hamem : a ∈ (⟨r0, now⟩ : ArchRow) :: st.archived := hamem
        rcases List.mem_cons.mp hamem with hcase | hcase
        · rw [hcase] at haid
          have hx : idInActive st r0.id = true :=
            (idInActive_iff st r0.id).mpr ⟨t, htmem, htid.trans haid.symm⟩
          rw [hnp2.1] at hx
          cases hx
        · exact h j ⟨(idInActive_iff st j).mpr ⟨t, htmem, htid⟩,
            (idInArchive_iff st j).mpr ⟨a, hcase, haid⟩⟩
      · intro j hj
        obtain ⟨hja, hjr⟩ := hj
        obtain ⟨t, htmem, htid⟩ := (idInActive_iff _ j).mp hja
        obtain ⟨a, hamem, haid⟩ := (idInArchive_iff _ j).mp hjr
        replace htmem : t ∈ r0 :: st.active := htmem
        replace hamem : a ∈ st.archived := hamem
        rcases List.mem_cons.mp htmem with hcase | hcase
        · rw [hcase] at htid
          have hx : idInArchive st r0.id = true :=
            (idInArchive_iff st r0.id).mpr ⟨a, hamem, haid.trans htid.symm⟩
          rw [hnp2.2] at hx
          cases hx
        · exact h j ⟨(idInActive_iff st j).mpr ⟨t, hcase, htid⟩,
            (idInArchive_iff st j).mpr ⟨a, hamem, haid⟩⟩

/-- C2 witness: the theorem applied to the concrete one-row store whose
single done item (id 2) is archived: uniqueness holds afterwards and id 2
stays visible. -/
theorem C2_cross_store_uniqueness_witness :
    UniqueAcross (archiveOne ⟨[c4row], []⟩ 2 100) ∧
    (idPresent (archiveOne ⟨[c4row], []⟩ 2 100) 2 = true
      ↔ idPresent ⟨[c4row], []⟩ 2 = true) := by
  have hu : UniqueAcross ⟨[c4row], []⟩ := by
    intro j hj
    exact absurd hj.2 (by simp [idInArchive])
  exact ⟨(C2_cross_store_uniqueness ⟨[c4row], []⟩ 2 100 30 c10row hu).1,
    (C2_cross_store_uniqueness ⟨[c4row], []⟩ 2 100 30 c10row hu).2.1 2⟩

/-- Helper: one migration step keeps every already-visible id visible. -/
theorem idPresent_migrateStep (now threshold : Nat) (p : Stores × Nat) (r : TodoRow)
    (j : Nat) (h : idPresent p.1 j = true) :
    idPresent (migrateStep now threshold p r).1 j = true := by
  unfold migrateStep
  split
  · exact h
  · simp only [idPresent, Bool.or_eq_true, idInActive_iff, idInArchive_iff] at h
    split
    · simp only [idPresent, Bool.or_eq_true, idInActive_iff, idInArchive_iff]
      rcases h with h1 | h1
      · exact Or.inl h1
      · obtain ⟨a, hamem, haid⟩ := h1
        exact Or.inr ⟨a, List.mem_cons_of_mem _ hamem, haid⟩
    · simp only [idPresent, Bool.or_eq_true, idInActive_iff, idInArchive_iff]
      rcases h with h1 | h1
      · obtain ⟨t, htmem, htid⟩ := h1
        exact Or.inl ⟨t, List.mem_cons_of_mem _ htmem, htid⟩
      · exact Or.inr h1

/-- Helper: after its migration step, a row's id is visible. -/
theorem idPresent_migrateStep_self (now threshold : Nat) (p : Stores × Nat) (r : TodoRow) :
    idPresent (migrateStep now threshold p r).1 r.id = true := by
  unfold migrateStep
  split
  · next hp => exact hp
  · split
    · simp only [idPresent, Bool.or_eq_true, idInArchive_iff]
      exact Or.inr ⟨⟨r, now⟩, List.mem_cons_self _ _, rfl⟩
    · simp only [idPresent, Bool.or_eq_true, idInActive_iff]
      exact Or.inl ⟨r, List.mem_cons_self _ _, rfl⟩

/-- Helper: visibility of an id is preserved along the whole batch loop. -/
theorem idPresent_migrateFold (now threshold : Nat) :
    ∀ (l : List TodoRow) (p : Stores × Nat) (j : Nat),
      idPresent p.1 j = true →
      idPresent (l.foldl (migrateStep now threshold) p).1 j = true := by
  intro l
  induction l with
  | nil => intro p j h; exact h
  | cons a l ih =>
    intro p j h
    simp only [List.foldl_cons]
    exact ih _ j (idPresent_migrateStep now threshold p a j h)

/-- Helper: after a complete run every visited row's id is visible. -/
theorem idPresent_after_migrateRun (now threshold : Nat) :
    ∀ (l : List TodoRow) (p : Stores × Nat) (r : TodoRow), r ∈ l →
      idPresent (l.foldl (migrateStep now threshold) p).1 r.id = true := by
  intro l
  induction l with
  | nil => intro p r h; exact absurd h (List.not_mem_nil r)
  | cons a l ih =>
    intro p r h
    simp only [List.foldl_cons]
    rcases List.mem_cons.mp h with hcase | hcase
    · rw [hcase]
      exact idPresent_migrateFold now threshold l _ a.id
        (idPresent_migrateStep_self now threshold p a)
    · exact ih _ r hcase

/-- Helper: when every row of the batch is already visible, the batch loop
does nothing and migrates zero rows. -/
theorem migrateFold_skip (now threshold : Nat) :
    ∀ (l : List TodoRow) (p : Stores × Nat),
      (∀ r ∈ l, idPresent p.1 r.id = true) →
      l.foldl (migrateStep now threshold) p = p := by
  intro l
  induction l with
  | nil => intro p _; rfl
  | cons a l ih =>
    intro p h
    have ha := h a (List.mem_cons_self a l)
    have hstep : migrateStep now threshold p a = p := by
      unfold migrateStep
      rw [if_pos ha]
    simp only [List.foldl_cons, hstep]
    exact ih p (fun r hr => h r (List.mem_cons_of_mem a hr))

/-- C3: migration is idempotent. Running `migrate_batch` to completion and
running it again leaves the Active and Archive stores identical and
migrates zero rows the second time, because every insert is
insert-if-absent keyed on the Item's id. -/
theorem C3_migration_idempotent (legacy : List TodoRow) (st : Stores) (now threshold : Nat) :
    migrateRun legacy (migrateRun legacy st now threshold).1 now threshold
      = ((migrateRun legacy st now threshold).1, 0) := by
  unfold migrateRun
  exact migrateFold_skip now threshold legacy _
    (fun r hr => idPresent_after_migrateRun now threshold legacy (st, 0) r hr)

/-- C5: a completed daily-archival run moves an Active item to the Archive
store iff it is eligible (`status == done` and `now - completed_at ≥
threshold`): the resulting Active store holds exactly the previously
active non-eligible rows unchanged, and the resulting Archive store holds
exactly the eligible rows stamped with `archived_at = now` on top of the
untouched previous archive. -/
theorem C5_archival_eligibility (st : Stores) (now threshold : Nat) :
    (∀ r, r ∈ (runDailyArchival st now threshold).active ↔
        r ∈ st.active ∧ archivalEligible r now threshold = false) ∧
    (∀ a, a ∈ (runDailyArchival st now threshold).archived ↔
        ((∃ r, r ∈ st.active ∧ archivalEligible r now threshold = true ∧
            ArchRow.mk r now = a) ∨
          a ∈ st.archived)) := by
  constructor
  · intro r
    simp [runDailyArchival, List.mem_filter]
  · intro a
    simp [runDailyArchival, List.mem_append, List.mem_map, List.mem_filter, and_assoc]

/-- C6: the Partition Router is a total function on keys whose result,
for a fixed positive partition count `n`, always lies in `{0..n-1}` and
equals the stable hash of the tenant key modulo `n`; being a pure
function of its arguments, repeated calls (also across process restarts)
agree. -/
theorem C6_partition_for_routing (k n : Nat) (h : 0 < n) :
    partition_for k n < n ∧ partition_for k n = hashTenantKey k % n :=
  ⟨Nat.mod_lt _ h, rfl⟩

/-- C6 witness: the router evaluated at a concrete key with the deployed
Active-store partition count 16. -/
theorem C6_partition_for_routing_witness :
    0 < 16 ∧ partition_for 12345 16 < 16 ∧
      partition_for 12345 16 = hashTenantKey 12345 % 16 :=
  ⟨by decide, C6_partition_for_routing 12345 16 (by decide)⟩

/-- C7: provisioning a monthly Archive partition is idempotent: a second
call for the same (year, month) after a successful first call is a no-op
that raises no error and leaves the set of provisioned partitions
identical, and after the first call the month's partition exists. -/
theorem C7_create_partition_idempotent (ps : List Nat) (y m : Nat) :
    create_partition_for_month (create_partition_for_month ps y m) y m
      = create_partition_for_month ps y m ∧
    (create_partition_for_month ps y m).contains (linearMonth y m) = true := by
  unfold create_partition_for_month
  by_cases hm : linearMonth y m ∈ ps
  · have h : ps.contains (linearMonth y m) = true := by simpa using hm
    simp [h, hm, List.contains_cons]
  · have h : ps.contains (linearMonth y m) = false := by simpa using hm
    simp [h, hm, List.contains_cons]

/-- C8: an Archive-store insert whose `archived_at` falls in a month with
no provisioned partition raises `PartitionNotProvisioned` and changes
nothing; the insert succeeds exactly when the target month's partition
already exists, and success leaves the set of provisioned partitions
untouched (no silent auto-creation). -/
theorem C8_partition_not_provisioned (st : ArchiveStore) (a : ArchRow) :
    (st.provisionedMonths.contains (monthWindowOf a.archived_at) = false →
      insert_archived st a = Except.error ArchiveInsertError.partitionNotProvisioned) ∧
    (st.provisionedMonths.contains (monthWindowOf a.archived_at) = true →
      insert_archived st a
        = Except.ok ⟨st.provisionedMonths, a :: st.rows⟩) := by
  constructor
  · intro h
    have hm : monthWindowOf a.archived_at ∉ st.provisionedMonths := by simpa using h
    simp [insert_archived, hm]
  · intro h
    have hm : monthWindowOf a.archived_at ∈ st.provisionedMonths := by simpa using h
    simp [insert_archived, hm]

/-- C8 witness: with no partitions provisioned the concrete insert errors
with `PartitionNotProvisioned`; with the target month (window 1)
provisioned the same insert succeeds and provisions nothing new. -/
theorem C8_partition_not_provisioned_witness :
    insert_archived ⟨[], []⟩ c8arch
        = Except.error ArchiveInsertError.partitionNotProvisioned ∧
    insert_archived ⟨[1], []⟩ c8arch = Except.ok ⟨[1], [c8arch]⟩ :=
  ⟨(C8_partition_not_provisioned ⟨[], []⟩ c8arch).1 rfl,
   (C8_partition_not_provisioned ⟨[1], []⟩ c8arch).2 (by decide)⟩

/-- C10 witness: the frame theorem applied to a concrete one-row store:
the update is found, the id, owner, parent, ai flag and creation time of
the result are those of the original row, and the row count is kept. -/
theorem C10_frame_witness :
    updateTodoStore [c10row] 3 7 c10upd 5
      = some [applyUpdate c10row c10upd 5] ∧
    (applyUpdate c10row c10upd 5).parent_todo_id = c10row.parent_todo_id := by
  have h : updateTodoStore [c10row] 3 7 c10upd 5
      = some [applyUpdate c10row c10upd 5] := rfl
  have hc := C10_frame [c10row] 3 7 c10upd 5 [applyUpdate c10row c10upd 5] h
  exact ⟨h, (hc.2.2 c10row (List.mem_singleton.mpr rfl) rfl).2.2.1⟩

end TodoListBE
